import Mathlib

/-!
Verification of the data-cleaning / feature-engineering pipeline and the
sidebar filter of the Netflix catalog dashboard (`src/main.py`).

The pipeline `load_and_clean_data` (lines 41-79 of `main.py`) is embedded as a
function over explicit lists of records.  External library behaviour is
modelled explicitly:
* `pd.read_csv` yields either no table (missing file) or a list of `RawRow`s
  whose empty CSV cells are `none` (pandas reads empty fields as NaN);
* `pd.to_datetime(..., errors='coerce')` is an arbitrary parameter
  `parseDate : String -> Option PDate` (only the `year`/`month` components of
  a parsed timestamp are ever used by the script);
* `.astype(float)` on a column of strings is `pyFloat?`, a parser for plain
  decimal notation (the only shape occurring in duration strings); a parse
  failure raises an uncaught exception in the script, modelled by the
  `parseException` outcome.
-/

/-- A parsed `date_added` timestamp; the script only reads `.dt.year` and
`.dt.month` of the parsed column. -/
structure PDate where
  year : Int
  month : Nat
  deriving DecidableEq, Repr

/-- One raw CSV record of `netflix_titles.csv` as produced by `pd.read_csv`.
Cells that can be empty in the data (and are touched by the cleaning code)
are `Option String`; `none` is pandas' NaN. -/
structure RawRow where
  title : String
  type : String
  director : Option String
  cast : Option String
  country : Option String
  date_added : Option String
  release_year : Int
  rating : Option String
  duration : Option String
  listed_in : String
  description : String
  deriving DecidableEq, Repr

/-- Models pandas `read_csv` NA-handling for a single text cell: an empty
field becomes NaN (`none`). -/
def csvField (s : String) : Option String :=
  if s = "" then none else some s

/-- The `(title, type)` key used by `df.drop_duplicates(subset=['title','type'])`
(line 50). -/
def rawKey (r : RawRow) : String × String :=
  (r.title, r.type)

/-- `df.drop_duplicates(subset=['title','type'], inplace=True)` (line 50),
keeping the first occurrence of each key, accumulating the keys seen so far. -/
def dropDupAux (seen : List (String × String)) : List RawRow → List RawRow
  | [] => []
  | r :: rest =>
    if rawKey r ∈ seen then dropDupAux seen rest
    else r :: dropDupAux (rawKey r :: seen) rest

/-- Deduplication on `(title, type)`, keep='first' (pandas default). -/
def dropDuplicates (rows : List RawRow) : List RawRow :=
  dropDupAux [] rows

/-- A record after the `fillna('Unknown')` imputation of `director`, `cast`
and `country` (lines 51-54): those three columns are now never NaN. -/
structure FilledRow where
  title : String
  type : String
  director : String
  cast : String
  country : String
  date_added : Option String
  release_year : Int
  rating : Option String
  duration : Option String
  listed_in : String
  description : String
  deriving DecidableEq, Repr

/-- Lines 51-54: `df['director'] = df['director'].fillna('Unknown')`, same for
`cast` and `country` (the literal sentinel, not the column mode). -/
def imputeUnknown (r : RawRow) : FilledRow :=
  { title := r.title
    type := r.type
    director := r.director.getD "Unknown"
    cast := r.cast.getD "Unknown"
    country := r.country.getD "Unknown"
    date_added := r.date_added
    release_year := r.release_year
    rating := r.rating
    duration := r.duration
    listed_in := r.listed_in
    description := r.description }

/-- Lines 63-66: the rating bucketing function `group_rating` of the source,
with the source's literal (Portuguese) bucket labels; the spec's English
names Adult / Teen / Family-Kids denote these three strings. -/
def group_rating (rating : String) : String :=
  if rating = "TV-MA" ∨ rating = "R" ∨ rating = "NC-17" ∨ rating = "UR" then "Adulto"
  else if rating = "TV-14" ∨ rating = "PG-13" then "Adolescente"
  else "Família/Crianças"

/-- A record after the required-field drop, date parsing, temporal filter and
feature engineering (lines 55-71): `rating` and `duration` are now plain
strings, `year_added`, `month_added`, `rating_group` and `content_lag_years`
are present. -/
structure PreRow where
  title : String
  type : String
  director : String
  cast : String
  country : String
  date_added : PDate
  release_year : Int
  rating : String
  duration : String
  year_added : Int
  month_added : Nat
  rating_group : String
  content_lag_years : Int
  listed_in : String
  description : String
  deriving DecidableEq, Repr

/-- Python `str.strip()`: remove whitespace from both ends. -/
def pyStrip (cs : List Char) : List Char :=
  ((cs.dropWhile Char.isWhitespace).reverse.dropWhile Char.isWhitespace).reverse

/-- Python `str.strip()` on a `String` (pandas `.str.strip()` on line 56). -/
def pyStripStr (s : String) : String :=
  ⟨pyStrip s.toList⟩

/-- Row-wise composition of lines 55-71 of the source:
* line 55 `dropna(subset=['date_added','rating','duration'])`: all three must
  be present;
* lines 56-57 `to_datetime(df['date_added'].str.strip(), errors='coerce')`
  followed by `dropna(subset=['date_added'])`: the trimmed string must parse;
* line 58 `year_added = date_added.dt.year`;
* line 61 temporal filter `df[df['year_added'] >= df['release_year']]`;
* line 67 `rating_group = rating.apply(group_rating)`;
* lines 70-71 `month_added = date_added.dt.month`,
  `content_lag_years = year_added - release_year`.
These columnar steps only drop rows or add derived columns, so their row-wise
composition is faithful. -/
def validateRow (parseDate : String → Option PDate) (r : FilledRow) : Option PreRow :=
  match r.date_added, r.rating, r.duration with
  | some da, some rat, some dur =>
    match parseDate (pyStripStr da) with
    | some d =>
      if r.release_year ≤ d.year then
        some { title := r.title
               type := r.type
               director := r.director
               cast := r.cast
               country := r.country
               date_added := d
               release_year := r.release_year
               rating := rat
               duration := dur
               year_added := d.year
               month_added := d.month
               rating_group := group_rating rat
               content_lag_years := d.year - r.release_year
               listed_in := r.listed_in
               description := r.description }
      else none
    | none => none
  | _, _, _ => none

/-- Remove every occurrence of `" min"`, scanning left to right without
rescanning removed regions: pandas `str.replace(' min', '')` (regex=False,
replace-all) on line 76. -/
def removeMinTokens : List Char → List Char
  | ' ' :: 'm' :: 'i' :: 'n' :: rest => removeMinTokens rest
  | c :: rest => c :: removeMinTokens rest
  | [] => []

/-- Remove every match of the regex `' Seasons?| Season'` (line 77), scanning
left to right: at each position the greedy alternative `" Seasons"` is tried
before `" Season"`, and scanning resumes after the removed match. -/
def removeSeasonTokens : List Char → List Char
  | ' ' :: 'S' :: 'e' :: 'a' :: 's' :: 'o' :: 'n' :: 's' :: rest => removeSeasonTokens rest
  | ' ' :: 'S' :: 'e' :: 'a' :: 's' :: 'o' :: 'n' :: rest => removeSeasonTokens rest
  | c :: rest => c :: removeSeasonTokens rest
  | [] => []

/-- `df['duration'].str.replace(' min', '')` on line 76. -/
def stripMin (s : String) : String :=
  ⟨removeMinTokens s.toList⟩

/-- `df['duration'].str.replace(r' Seasons?| Season', '', regex=True)` on
line 77. -/
def stripSeasons (s : String) : String :=
  ⟨removeSeasonTokens s.toList⟩

/-- Numeric value of a digit string (caller checks all characters are
digits). -/
def digitsVal (cs : List Char) : Nat :=
  cs.foldl (fun a c => 10 * a + (c.toNat - 48)) 0

/-- Models Python `float(s)` / pandas `.astype(float)` on a string cell,
restricted to plain decimal notation (optional sign, digits, optional
fractional part) - the only shapes a duration column can contain; exotic
float syntax (exponents, inf, nan) is out of the modelled domain.  `none`
means Python raises `ValueError`.  The value `s * (i + f / 10^k)` is built
as the single fraction `s * (i * 10^k + f) / 10^k`. -/
def pyFloat? (s : String) : Option Rat :=
  let t := pyStrip s.toList
  let (sgn, body) :=
    match t with
    | '-' :: rest => ((-1 : Int), rest)
    | '+' :: rest => ((1 : Int), rest)
    | _ => ((1 : Int), t)
  match body.splitOn '.' with
  | [intPart] =>
    if intPart ≠ [] ∧ intPart.all Char.isDigit then
      some (mkRat (sgn * (digitsVal intPart : Int)) 1)
    else none
  | [intPart, fracPart] =>
    if (intPart ≠ [] ∨ fracPart ≠ []) ∧ intPart.all Char.isDigit ∧ fracPart.all Char.isDigit then
      some (mkRat (sgn * ((digitsVal intPart : Int) * (10 : Int) ^ fracPart.length
                          + (digitsVal fracPart : Int)))
                  ((10 : Nat) ^ fracPart.length))
    else none
  | _ => none

/-- A fully cleaned record: the outcome of lines 73-77.  `duration_minutes`
is set only on Movie rows, `duration_seasons` only on TV Show rows; all
previously derived columns live in `pre`. -/
structure CleanRow where
  pre : PreRow
  duration_minutes : Option Rat
  duration_seasons : Option Rat
  deriving DecidableEq, Repr

/-- Lines 73-77 on a single row: a Movie row gets `duration_minutes` from its
`" min"`-stripped duration string, a TV Show row gets `duration_seasons` from
its season-stripped string, any other type gets neither column.  `none` means
`.astype(float)` raised. -/
def durSplit (p : PreRow) : Option CleanRow :=
  if p.type = "Movie" then
    match pyFloat? (stripMin p.duration) with
    | some m => some { pre := p, duration_minutes := some m, duration_seasons := none }
    | none => none
  else if p.type = "TV Show" then
    match pyFloat? (stripSeasons p.duration) with
    | some n => some { pre := p, duration_minutes := none, duration_seasons := some n }
    | none => none
  else some { pre := p, duration_minutes := none, duration_seasons := none }

/-- Apply `durSplit` to every row; any single failure aborts the whole
pipeline (the `ValueError` from `.astype(float)` is not caught anywhere in
the script). -/
def addDurations : List PreRow → Option (List CleanRow)
  | [] => some []
  | p :: rest =>
    match durSplit p with
    | none => none
    | some c =>
      match addDurations rest with
      | none => none
      | some cs => some (c :: cs)

/-- The rows surviving lines 50-71, in order. -/
def preRows (parseDate : String → Option PDate) (raws : List RawRow) : List PreRow :=
  ((dropDuplicates raws).map imputeUnknown).filterMap (validateRow parseDate)

/-- Outcome of running `load_and_clean_data()`:
* `loadFailure`: `FileNotFoundError` was caught, `st.error` reported it once
  and the function returned `None` (lines 43-47);
* `parseException`: an uncaught `ValueError` from `.astype(float)` aborted
  the script (lines 76-77);
* `table rows`: the cleaned dataframe. -/
inductive PipelineResult where
  | loadFailure
  | parseException
  | table (rows : List CleanRow)
  deriving DecidableEq, Repr

/-- `load_and_clean_data` (lines 41-79), parameterized by the datetime parser
and by the outcome of `pd.read_csv` (`none` = the file is missing). -/
def load_and_clean_data (parseDate : String → Option PDate) :
    Option (List RawRow) → PipelineResult
  | none => .loadFailure
  | some raws =>
    match addDurations (preRows parseDate raws) with
    | none => .parseException
    | some rows => .table rows

/-- Line 84: `if df_original is not None:` - the whole dashboard body runs
only when the pipeline produced a table. -/
def hasTable : PipelineResult → Bool
  | .table _ => true
  | _ => false

/-- The sidebar filter state: selected content types, selected rating groups,
inclusive release-year range, selected country tokens (lines 89-125). -/
structure FilterSpec where
  types : List String
  ratingGroups : List String
  yearMin : Int
  yearMax : Int
  countries : List String
  deriving DecidableEq, Repr

/-- `t` occurs in `s` as a contiguous substring. -/
def listIsSub (pat : List Char) : List Char → Bool
  | [] => pat.isEmpty
  | c :: rest => pat.isPrefixOf (c :: rest) || listIsSub pat rest

/-- String containment used to model `Series.str.contains` on literal
tokens. -/
def isSubstr (t s : String) : Bool :=
  listIsSub t.toList s.toList

/-- Line 133: `df_original['country'].str.contains('|'.join(selected_country))`
for country tokens without regex metacharacters (the tokens come from
splitting country cells on `", "`).  Joining an empty selection produces the
empty pattern, which matches every row. -/
def countryContains (tokens : List String) (country : String) : Bool :=
  tokens.isEmpty || tokens.any (fun t => isSubstr t country)

/-- The conjunction of the four boolean masks of lines 128-134. -/
def rowMatches (f : FilterSpec) (c : CleanRow) : Bool :=
  f.types.contains c.pre.type &&
  f.ratingGroups.contains c.pre.rating_group &&
  decide (f.yearMin ≤ c.pre.release_year) &&
  decide (c.pre.release_year ≤ f.yearMax) &&
  countryContains f.countries c.pre.country

/-- Lines 128-134: `df = df_original[mask]`, an order-preserving row
filter. -/
def filterView (f : FilterSpec) (rows : List CleanRow) : List CleanRow :=
  rows.filter (rowMatches f)

/-- The filter predicate as the spec's words describe it (for comparison with
`rowMatches`): the country condition requires at least one selected token to
occur in the country cell, with no special case for an empty selection. -/
def rowMatchesSpecWords (f : FilterSpec) (c : CleanRow) : Bool :=
  f.types.contains c.pre.type &&
  f.ratingGroups.contains c.pre.rating_group &&
  decide (f.yearMin ≤ c.pre.release_year) &&
  decide (c.pre.release_year ≤ f.yearMax) &&
  f.countries.any (fun t => isSubstr t c.pre.country)

/-!
Concrete data used by the witness and counterexample theorems below.
`wRaw1` is the spec's worked example row (its `country` cell is the empty
CSV field); `wPd` is a datetime parser that recognises the one date string
occurring in these examples.
-/

/-- A datetime parser recognising the worked example's date string. -/
def wPd : String → Option PDate :=
  fun s => if s = "January 1, 2020" then some ⟨2020, 1⟩ else none

/-- The spec's worked example input row: `{title:"X", type:"Movie",
date_added:"January 1, 2020", release_year:2019, rating:"PG-13",
duration:"90 min", country:""}`. -/
def wRaw1 : RawRow :=
  { title := "X", type := "Movie", director := none, cast := none,
    country := csvField "", date_added := some "January 1, 2020",
    release_year := 2019, rating := some "PG-13", duration := some "90 min",
    listed_in := "Dramas", description := "a film" }

/-- The cleaned row the pipeline produces from `wRaw1`: `year_added = 2020`,
`rating_group = "Adolescente"` (the Teen bucket), `duration_minutes = 90`,
`country = "Unknown"`. -/
def cRow0 : CleanRow :=
  { pre := { title := "X", type := "Movie", director := "Unknown", cast := "Unknown",
             country := "Unknown", date_added := ⟨2020, 1⟩, release_year := 2019,
             rating := "PG-13", duration := "90 min", year_added := 2020,
             month_added := 1, rating_group := "Adolescente", content_lag_years := 1,
             listed_in := "Dramas", description := "a film" },
    duration_minutes := some (mkRat 90 1), duration_seasons := none }

/-- A filter specification whose country multiselect has been emptied. -/
def cSpec0 : FilterSpec :=
  { types := ["Movie"], ratingGroups := ["Adolescente"],
    yearMin := 2000, yearMax := 2025, countries := [] }

/-- A raw row whose `type` is neither `"Movie"` nor `"TV Show"` and which
passes every row-level check. -/
def wRawOther : RawRow :=
  { title := "P", type := "Podcast", director := none, cast := none,
    country := some "India", date_added := some "January 1, 2020",
    release_year := 2018, rating := some "PG", duration := some "5 eps",
    listed_in := "Shows", description := "a podcast" }

/-- The validated row obtained from `wRawOther`. -/
def wPreOther : PreRow :=
  { title := "P", type := "Podcast", director := "Unknown", cast := "Unknown",
    country := "India", date_added := ⟨2020, 1⟩, release_year := 2018,
    rating := "PG", duration := "5 eps", year_added := 2020, month_added := 1,
    rating_group := "Família/Crianças", content_lag_years := 2,
    listed_in := "Shows", description := "a podcast" }

/-- The cleaned row obtained from `wRawOther`: both duration columns
absent. -/
def wCleanOther : CleanRow :=
  { pre := wPreOther, duration_minutes := none, duration_seasons := none }

/-- A first occurrence of the key `("T", "Movie")` that is dropped at the
required-field step (its `rating` is missing). -/
def wRawBad : RawRow :=
  { title := "T", type := "Movie", director := none, cast := none,
    country := none, date_added := some "January 1, 2020",
    release_year := 2019, rating := none, duration := some "90 min",
    listed_in := "", description := "" }

/-- A later duplicate of the key `("T", "Movie")` that would pass every
check. -/
def wRawGood : RawRow :=
  { title := "T", type := "Movie", director := some "D", cast := some "C",
    country := some "India", date_added := some "January 1, 2020",
    release_year := 2019, rating := some "R", duration := some "95 min",
    listed_in := "", description := "" }

/-! ### Structural lemmas about the pipeline -/

/-- A successful duration split leaves every previously derived column of the
row unchanged. -/
theorem durSplit_pre {p : PreRow} {c : CleanRow} (h : durSplit p = some c) : c.pre = p := by
  unfold durSplit at h
  split at h
  · cases hm : pyFloat? (stripMin p.duration) <;> rw [hm] at h
    · exact absurd h (by simp)
    · cases h; rfl
  · split at h
    · cases hm : pyFloat? (stripSeasons p.duration) <;> rw [hm] at h
      · exact absurd h (by simp)
      · cases h; rfl
    · cases h; rfl

/-- Every row of a successful duration-split output comes from an input row. -/
theorem addDurations_mem : ∀ {ps : List PreRow} {cs : List CleanRow},
    addDurations ps = some cs → ∀ c ∈ cs, ∃ p ∈ ps, durSplit p = some c
  | [], cs, h => by cases h; intro c hc; cases hc
  | p :: rest, cs, h => by
    unfold addDurations at h
    cases hd : durSplit p <;> rw [hd] at h
    · cases h
    · cases hr : addDurations rest <;> rw [hr] at h
      · cases h
      · cases h
        intro c hc
        rcases List.mem_cons.mp hc with hc | hc
        · exact ⟨p, List.mem_cons_self .., by rw [hd, hc]⟩
        · rcases addDurations_mem hr c hc with ⟨q, hq, hdq⟩
          exact ⟨q, List.mem_cons_of_mem _ hq, hdq⟩

/-- Every input row of a successful duration split appears, split, in the
output. -/
theorem addDurations_mem_of : ∀ {ps : List PreRow} {cs : List CleanRow},
    addDurations ps = some cs → ∀ p ∈ ps, ∃ c ∈ cs, durSplit p = some c
  | [], cs, h => by cases h; intro p hp; cases hp
  | p :: rest, cs, h => by
    unfold addDurations at h
    cases hd : durSplit p <;> rw [hd] at h
    · cases h
    · cases hr : addDurations rest <;> rw [hr] at h
      · cases h
      · cases h
        intro q hq
        rcases List.mem_cons.mp hq with hq | hq
        · subst hq; exact ⟨_, List.mem_cons_self .., hd⟩
        · rcases addDurations_mem_of hr q hq with ⟨c, hc, hdc⟩
          exact ⟨c, List.mem_cons_of_mem _ hc, hdc⟩

/-- The duration split preserves the `(title, type)` key sequence. -/
theorem addDurations_keys : ∀ {ps : List PreRow} {cs : List CleanRow},
    addDurations ps = some cs →
    cs.map (fun c => (c.pre.title, c.pre.type)) = ps.map (fun p => (p.title, p.type))
  | [], cs, h => by cases h; rfl
  | p :: rest, cs, h => by
    unfold addDurations at h
    cases hd : durSplit p <;> rw [hd] at h
    · cases h
    · cases hr : addDurations rest <;> rw [hr] at h
      · cases h
      · cases h
        simp only [List.map_cons, addDurations_keys hr, durSplit_pre hd]

/-- A validated row keeps its identity and imputed fields and satisfies the
temporal invariant. -/
theorem validateRow_shape {pd : String → Option PDate} {fr : FilledRow} {p : PreRow}
    (h : validateRow pd fr = some p) :
    p.title = fr.title ∧ p.type = fr.type ∧ p.director = fr.director ∧
    p.cast = fr.cast ∧ p.country = fr.country ∧ p.release_year = fr.release_year ∧
    p.release_year ≤ p.year_added := by
  unfold validateRow at h
  split at h
  · split at h
    · split at h
      · injection h with h
        subst h
        refine ⟨rfl, rfl, rfl, rfl, rfl, rfl, ?_⟩
        assumption
      · exact absurd h (by simp)
    · exact absurd h (by simp)
  · exact absurd h (by simp)

/-- A row surviving deduplication does not carry a key seen earlier. -/
theorem mem_dropDupAux_notin_seen : ∀ {seen : List (String × String)} {l : List RawRow}
    {x : RawRow}, x ∈ dropDupAux seen l → rawKey x ∉ seen
  | seen, [], x, hx => by cases hx
  | seen, r :: rest, x, hx => by
    unfold dropDupAux at hx
    split at hx
    · exact mem_dropDupAux_notin_seen hx
    · rcases List.mem_cons.mp hx with hx | hx
      · subst hx; assumption
      · have := mem_dropDupAux_notin_seen hx
        intro hmem
        exact this (List.mem_cons_of_mem _ hmem)

/-- Deduplication yields pairwise distinct `(title, type)` keys. -/
theorem dropDupAux_pairwise : ∀ (seen : List (String × String)) (l : List RawRow),
    (dropDupAux seen l).Pairwise (fun a b => rawKey a ≠ rawKey b)
  | seen, [] => List.Pairwise.nil
  | seen, r :: rest => by
    unfold dropDupAux
    split
    · exact dropDupAux_pairwise seen rest
    · refine List.Pairwise.cons ?_ (dropDupAux_pairwise _ rest)
      intro b hb
      have := mem_dropDupAux_notin_seen hb
      intro hkey
      exact this (hkey ▸ List.mem_cons_self ..)

/-- Deduplication returns an (order-preserving) sublist of its input. -/
theorem dropDupAux_sublist : ∀ (seen : List (String × String)) (l : List RawRow),
    List.Sublist (dropDupAux seen l) l
  | seen, [] => List.Sublist.refl _
  | seen, r :: rest => by
    unfold dropDupAux
    split
    · exact List.Sublist.cons _ (dropDupAux_sublist seen rest)
    · exact List.Sublist.cons₂ _ (dropDupAux_sublist _ rest)

/-- Rows surviving deduplication are rows of the input. -/
theorem mem_dropDuplicates_mem {raws : List RawRow} {x : RawRow}
    (h : x ∈ dropDuplicates raws) : x ∈ raws :=
  (dropDupAux_sublist [] raws).mem h

/-- For any key not yet seen, the first key-match in the deduplicated list is
the first key-match in the input: deduplication keeps first occurrences. -/
theorem dropDupAux_find? (r : RawRow) : ∀ (l : List RawRow) (seen : List (String × String)),
    rawKey r ∉ seen →
    (dropDupAux seen l).find? (fun x => rawKey x == rawKey r)
      = l.find? (fun x => rawKey x == rawKey r)
  | [], seen, _ => rfl
  | a :: as, seen, hr => by
    unfold dropDupAux
    by_cases ha : rawKey a ∈ seen
    · rw [if_pos ha, dropDupAux_find? r as seen hr, List.find?_cons]
      have hne : (rawKey a == rawKey r) = false := by
        refine beq_false_of_ne ?_
        intro hk
        exact hr (hk ▸ ha)
      rw [hne]
    · rw [if_neg ha, List.find?_cons, List.find?_cons]
      cases hbeq : (rawKey a == rawKey r)
      · have hr' : rawKey r ∉ rawKey a :: seen := by
          intro hmem
          rcases List.mem_cons.mp hmem with hmem | hmem
          · rw [hmem] at hbeq
            simp at hbeq
          · exact hr hmem
        rw [dropDupAux_find? r as _ hr']
      · rfl

/-- In a list with pairwise distinct keys, two members with the same key are
equal. -/
theorem pairwise_key_mem_eq : ∀ {l : List RawRow},
    l.Pairwise (fun a b => rawKey a ≠ rawKey b) →
    ∀ {a b : RawRow}, a ∈ l → b ∈ l → rawKey a = rawKey b → a = b
  | [], _, a, b, ha, _, _ => by cases ha
  | x :: xs, hp, a, b, ha, hb, hk => by
    rcases List.pairwise_cons.mp hp with ⟨hx, hxs⟩
    rcases List.mem_cons.mp ha with ha1 | ha1
    · rcases List.mem_cons.mp hb with hb1 | hb1
      · rw [ha1, hb1]
      · subst ha1
        exact absurd hk (hx b hb1)
    · rcases List.mem_cons.mp hb with hb1 | hb1
      · subst hb1
        exact absurd hk.symm (hx a ha1)
      · exact pairwise_key_mem_eq hxs ha1 hb1 hk

/-- Mapping a key through `filterMap` yields a sublist of the keys of the
input, when the partial function preserves keys. -/
theorem map_filterMap_sublist {α β γ : Type} (g : α → Option β) (k1 : α → γ) (k2 : β → γ)
    (hg : ∀ x y, g x = some y → k2 y = k1 x) :
    ∀ l : List α, List.Sublist ((l.filterMap g).map k2) (l.map k1)
  | [] => List.Sublist.refl _
  | x :: xs => by
    rw [List.filterMap_cons]
    cases hx : g x
    · exact List.Sublist.cons _ (map_filterMap_sublist g k1 k2 hg xs)
    · rename_i y
      rw [List.map_cons, List.map_cons, hg x y hx]
      exact List.Sublist.cons₂ _ (map_filterMap_sublist g k1 k2 hg xs)

/-- A produced table is exactly the duration-split of the validated rows. -/
theorem table_inversion {pd : String → Option PDate} {raws : List RawRow} {rows : List CleanRow}
    (h : load_and_clean_data pd (some raws) = .table rows) :
    addDurations (preRows pd raws) = some rows := by
  cases hd : addDurations (preRows pd raws) <;>
    simp only [load_and_clean_data, hd] at h
  · cases h
  · cases h
    rfl

/-- Every validated row comes from a deduplicated raw row. -/
theorem mem_preRows {pd : String → Option PDate} {raws : List RawRow} {p : PreRow}
    (hp : p ∈ preRows pd raws) :
    ∃ raw, raw ∈ dropDuplicates raws ∧ validateRow pd (imputeUnknown raw) = some p := by
  unfold preRows at hp
  rcases List.mem_filterMap.mp hp with ⟨fr, hfr, hv⟩
  rcases List.mem_map.mp hfr with ⟨raw, hraw, rfl⟩
  exact ⟨raw, hraw, hv⟩

/-- The deduplicated key sequence has no duplicates. -/
theorem dedup_keys_nodup (raws : List RawRow) :
    ((dropDuplicates raws).map rawKey).Nodup :=
  List.pairwise_map.mpr (dropDupAux_pairwise [] raws)

/-- Validation only removes keys from the deduplicated key sequence. -/
theorem preRows_keys_sublist (pd : String → Option PDate) (raws : List RawRow) :
    List.Sublist ((preRows pd raws).map (fun p => (p.title, p.type)))
      ((dropDuplicates raws).map rawKey) := by
  unfold preRows
  rw [List.filterMap_map]
  refine map_filterMap_sublist _ _ _ ?_ _
  intro raw p hv
  rcases validateRow_shape hv with ⟨h1, h2, _⟩
  simp only [rawKey, imputeUnknown] at h1 h2 ⊢
  rw [h1, h2]

/-- The cleaned table's `(title, type)` key sequence has no duplicates. -/
theorem table_keys_nodup {pd : String → Option PDate} {raws : List RawRow} {rows : List CleanRow}
    (h : load_and_clean_data pd (some raws) = .table rows) :
    (rows.map (fun c => (c.pre.title, c.pre.type))).Nodup := by
  rw [addDurations_keys (table_inversion h)]
  exact (preRows_keys_sublist pd raws).nodup (dedup_keys_nodup raws)

/-! ### Claim theorems -/

/-- Claim C1 (corrected), counterexample to the claim as stated: with the
country multiselect emptied, the code's filter keeps a row that matches no
selected country token, because `'|'.join([])` is the empty pattern and
`str.contains('')` is true everywhere; the spec-worded filter would drop
every row. -/
theorem c1_empty_country_counterexample :
    filterView cSpec0 [cRow0] = [cRow0] ∧
    List.filter (rowMatchesSpecWords cSpec0) [cRow0] = [] := by
  decide

/-- Claim C1 (amended): the filtered view contains exactly the rows whose
`type` is among the selected types, whose `rating_group` is among the
selected groups, whose `release_year` lies in the inclusive range, and whose
`country` contains at least one selected token as a substring - except that
an empty country selection passes every row. -/
theorem c1_filter_characterization (f : FilterSpec) (rows : List CleanRow) (c : CleanRow) :
    c ∈ filterView f rows ↔
      c ∈ rows ∧ c.pre.type ∈ f.types ∧ c.pre.rating_group ∈ f.ratingGroups ∧
      f.yearMin ≤ c.pre.release_year ∧ c.pre.release_year ≤ f.yearMax ∧
      (f.countries = [] ∨ ∃ t ∈ f.countries, isSubstr t c.pre.country = true) := by
  simp [filterView, rowMatches, countryContains, List.mem_filter,
    List.isEmpty_iff, List.any_eq_true, and_assoc]

/-- Claim C2: `group_rating` is total - every rating string lands in exactly
one of the three buckets; `TV-MA`, `R`, `NC-17`, `UR` map to the Adult
bucket, `TV-14`, `PG-13` to the Teen bucket, and everything else defaults to
the Family/Kids bucket. -/
theorem c2_group_rating_total (r : String) :
    (group_rating r = "Adulto" ∨ group_rating r = "Adolescente" ∨
      group_rating r = "Família/Crianças")
    ∧ ((r = "TV-MA" ∨ r = "R" ∨ r = "NC-17" ∨ r = "UR") → group_rating r = "Adulto")
    ∧ ((r = "TV-14" ∨ r = "PG-13") → group_rating r = "Adolescente")
    ∧ (¬(r = "TV-MA" ∨ r = "R" ∨ r = "NC-17" ∨ r = "UR") →
        ¬(r = "TV-14" ∨ r = "PG-13") → group_rating r = "Família/Crianças") := by
  unfold group_rating
  split_ifs with h1 h2
  · refine ⟨Or.inl rfl, fun _ => rfl, ?_, fun hnA _ => absurd h1 hnA⟩
    intro hT
    rcases h1 with h | h | h | h <;> rcases hT with h' | h' <;> subst h' <;> simp_all
  · exact ⟨Or.inr (Or.inl rfl), fun hA => absurd hA h1, fun _ => rfl,
      fun _ hnT => absurd h2 hnT⟩
  · exact ⟨Or.inr (Or.inr rfl), fun hA => absurd hA h1, fun hT => absurd hT h2,
      fun _ _ => rfl⟩

/-- Witness for C2 at the concrete rating `"TV-MA"`. -/
theorem c2_witness : group_rating "TV-MA" = "Adulto" :=
  (c2_group_rating_total "TV-MA").2.1 (Or.inl rfl)

/-- Claim C3: every row of a produced table satisfies
`year_added >= release_year` - violating rows were discarded by the temporal
filter, not repaired. -/
theorem c3_temporal_invariant (parseDate : String → Option PDate)
    (raws : List RawRow) (rows : List CleanRow)
    (h : load_and_clean_data parseDate (some raws) = .table rows) :
    ∀ c ∈ rows, c.pre.release_year ≤ c.pre.year_added := by
  intro c hc
  rcases addDurations_mem (table_inversion h) c hc with ⟨p, hp, hd⟩
  rcases mem_preRows hp with ⟨raw, _, hv⟩
  rcases validateRow_shape hv with ⟨_, _, _, _, _, _, hle⟩
  rw [durSplit_pre hd]
  exact hle

/-- Witness for C3 on the worked-example pipeline run. -/
theorem c3_witness : cRow0.pre.release_year ≤ cRow0.pre.year_added :=
  c3_temporal_invariant wPd [wRaw1] [cRow0] (by decide) cRow0 (by decide)

/-- Claim C4: the cleaned table's `(title, type)` pairs are pairwise
distinct, and deduplication is an order-preserving selection that keeps, for
every key of the input, exactly its first occurrence (the first key-match in
the deduplicated list is the first key-match in the input). -/
theorem c4_dedup_unique_first (parseDate : String → Option PDate)
    (raws : List RawRow) (rows : List CleanRow)
    (h : load_and_clean_data parseDate (some raws) = .table rows) :
    rows.Pairwise (fun a b => (a.pre.title, a.pre.type) ≠ (b.pre.title, b.pre.type))
    ∧ List.Sublist (dropDuplicates raws) raws
    ∧ ∀ r ∈ raws, (dropDuplicates raws).find? (fun x => rawKey x == rawKey r)
        = raws.find? (fun x => rawKey x == rawKey r) := by
  refine ⟨?_, dropDupAux_sublist [] raws, fun r _ => dropDupAux_find? r raws [] (by simp)⟩
  exact List.pairwise_map.mp (table_keys_nodup h)

/-- Witness for C4 on the worked-example pipeline run. -/
theorem c4_witness :
    ([cRow0] : List CleanRow).Pairwise
      (fun a b => (a.pre.title, a.pre.type) ≠ (b.pre.title, b.pre.type)) :=
  (c4_dedup_unique_first wPd [wRaw1] [cRow0] (by decide)).1

/-- Claim C5: in a produced table, Movie rows carry `duration_minutes`
parsed from the `" min"`-stripped duration string and no `duration_seasons`;
TV Show rows the reverse. -/
theorem c5_duration_split (parseDate : String → Option PDate)
    (raws : List RawRow) (rows : List CleanRow)
    (h : load_and_clean_data parseDate (some raws) = .table rows) :
    ∀ c ∈ rows,
      (c.pre.type = "Movie" →
        c.duration_minutes = pyFloat? (stripMin c.pre.duration) ∧
        c.duration_minutes.isSome = true ∧ c.duration_seasons = none)
      ∧ (c.pre.type = "TV Show" →
        c.duration_seasons = pyFloat? (stripSeasons c.pre.duration) ∧
        c.duration_seasons.isSome = true ∧ c.duration_minutes = none) := by
  intro c hc
  rcases addDurations_mem (table_inversion h) c hc with ⟨p, _, hd⟩
  unfold durSplit at hd
  split at hd
  · rename_i hM
    cases hm : pyFloat? (stripMin p.duration) <;> rw [hm] at hd
    · cases hd
    · cases hd
      refine ⟨fun _ => ⟨hm.symm, rfl, rfl⟩, fun hTV => ?_⟩
      rw [show ({ pre := p, duration_minutes := some _, duration_seasons := none } :
        CleanRow).pre.type = p.type from rfl, hM] at hTV
      exact absurd hTV (by decide)
  · split at hd
    · rename_i hM _
      cases hm : pyFloat? (stripSeasons p.duration) <;> rw [hm] at hd
      · cases hd
      · cases hd
        refine ⟨fun hMov => ?_, fun _ => ⟨hm.symm, rfl, rfl⟩⟩
        exact absurd hMov hM
    · rename_i hM hT
      cases hd
      exact ⟨fun hMov => absurd hMov hM, fun hTV => absurd hTV hT⟩

/-- Witness for C5: the worked-example Movie row has minutes set and seasons
absent. -/
theorem c5_witness :
    cRow0.duration_minutes = pyFloat? (stripMin cRow0.pre.duration) ∧
    cRow0.duration_minutes.isSome = true ∧ cRow0.duration_seasons = none :=
  (c5_duration_split wPd [wRaw1] [cRow0] (by decide) cRow0 (by decide)).1 rfl

/-- Claim C6: every row of a produced table draws its `director`, `cast` and
`country` from some raw input row with absent values replaced by the literal
sentinel `"Unknown"` - in particular none of the three is ever absent. -/
theorem c6_imputation (parseDate : String → Option PDate)
    (raws : List RawRow) (rows : List CleanRow)
    (h : load_and_clean_data parseDate (some raws) = .table rows) :
    ∀ c ∈ rows, ∃ raw, raw ∈ raws ∧
      c.pre.title = raw.title ∧ c.pre.type = raw.type ∧
      c.pre.director = raw.director.getD "Unknown" ∧
      c.pre.cast = raw.cast.getD "Unknown" ∧
      c.pre.country = raw.country.getD "Unknown" := by
  intro c hc
  rcases addDurations_mem (table_inversion h) c hc with ⟨p, hp, hd⟩
  rcases mem_preRows hp with ⟨raw, hraw, hv⟩
  rcases validateRow_shape hv with ⟨h1, h2, h3, h4, h5, _, _⟩
  refine ⟨raw, mem_dropDuplicates_mem hraw, ?_, ?_, ?_, ?_, ?_⟩ <;>
    rw [durSplit_pre hd] <;> simp only [h1, h2, h3, h4, h5, imputeUnknown]

/-- Witness for C6: the spec's worked example - the row with the empty
`country` cell ends with `country = "Unknown"` after cleaning. -/
theorem c6_witness :
    ∃ raw, raw ∈ [wRaw1] ∧
      cRow0.pre.title = raw.title ∧ cRow0.pre.type = raw.type ∧
      cRow0.pre.director = raw.director.getD "Unknown" ∧
      cRow0.pre.cast = raw.cast.getD "Unknown" ∧
      cRow0.pre.country = raw.country.getD "Unknown" :=
  c6_imputation wPd [wRaw1] [cRow0] (by decide) cRow0 (by decide)

/-- Claim C7: filtering is idempotent - re-filtering an already-filtered
view with the same specification changes nothing. -/
theorem c7_filter_idempotent (f : FilterSpec) (rows : List CleanRow) :
    filterView f (filterView f rows) = filterView f rows := by
  simp [filterView, List.filter_filter]

/-- Claim C8: with no input file the pipeline reports a load failure and
yields no table, and the caller's `is not None` guard skips the whole
dashboard body. -/
theorem c8_load_failure (parseDate : String → Option PDate) :
    load_and_clean_data parseDate none = .loadFailure ∧
    hasTable (load_and_clean_data parseDate none) = false :=
  ⟨rfl, rfl⟩

/-- Claim C9: a validated row whose `type` is neither `"Movie"` nor
`"TV Show"` survives the duration split and appears in the produced table
with both duration columns absent. -/
theorem c9_other_type_kept (parseDate : String → Option PDate)
    (raws : List RawRow) (rows : List CleanRow)
    (h : load_and_clean_data parseDate (some raws) = .table rows)
    (p : PreRow) (hp : p ∈ preRows parseDate raws)
    (hm : p.type ≠ "Movie") (ht : p.type ≠ "TV Show") :
    ∃ c ∈ rows, c.pre = p ∧ c.duration_minutes = none ∧ c.duration_seasons = none := by
  rcases addDurations_mem_of (table_inversion h) p hp with ⟨c, hc, hd⟩
  unfold durSplit at hd
  rw [if_neg hm, if_neg ht] at hd
  cases hd
  exact ⟨_, hc, rfl, rfl, rfl⟩

/-- Witness for C9: a `"Podcast"` row passes every earlier check and survives
with both duration columns absent. -/
theorem c9_witness :
    ∃ c ∈ [wCleanOther], c.pre = wPreOther ∧
      c.duration_minutes = none ∧ c.duration_seasons = none :=
  c9_other_type_kept wPd [wRawOther] [wCleanOther] (by decide) wPreOther
    (by decide) (by decide) (by decide)

/-- Claim C10: when the first occurrence of a `(title, type)` key fails a
row-level check, that key is entirely absent from the produced table, even
when a later duplicate raw row with the same key would have passed every
check. -/
theorem c10_first_occurrence_shadows (parseDate : String → Option PDate)
    (raws : List RawRow) (rows : List CleanRow)
    (h : load_and_clean_data parseDate (some raws) = .table rows)
    (r0 : RawRow) (h0 : r0 ∈ dropDuplicates raws)
    (hfail : validateRow parseDate (imputeUnknown r0) = none)
    (r1 : RawRow) (_h1 : r1 ∈ raws) (_hk : rawKey r1 = rawKey r0)
    (_hpass : (validateRow parseDate (imputeUnknown r1)).isSome = true) :
    ∀ c ∈ rows, (c.pre.title, c.pre.type) ≠ (r0.title, r0.type) := by
  intro c hc hkey
  rcases addDurations_mem (table_inversion h) c hc with ⟨p, hp, hd⟩
  rcases mem_preRows hp with ⟨raw, hraw, hv⟩
  rcases validateRow_shape hv with ⟨e1, e2, _⟩
  have hkr : rawKey raw = rawKey r0 := by
    rw [durSplit_pre hd, e1, e2] at hkey
    simpa [rawKey, imputeUnknown] using hkey
  have hre : raw = r0 := pairwise_key_mem_eq (dropDupAux_pairwise [] raws) hraw h0 hkr
  rw [hre, hfail] at hv
  cases hv

/-- Witness for C10: the first `("T", "Movie")` row lacks a rating, a later
duplicate is fully valid, and the produced table holds only the unrelated
worked-example row, whose key differs from `("T", "Movie")`. -/
theorem c10_witness :
    (cRow0.pre.title, cRow0.pre.type) ≠ (wRawBad.title, wRawBad.type) :=
  c10_first_occurrence_shadows wPd [wRawBad, wRawGood, wRaw1] [cRow0] (by decide) wRawBad
    (by decide) (by decide) wRawGood (by decide) (by decide) (by decide) cRow0 (by decide)
